import Mathlib

/-!
Shallow embedding of `pelican_bibtex.py` (pelican-bibtex plugin, version 0.2.1).

The plugin consists of a single function `add_publications(generator)` that
reads bibliography sources from `generator.settings['PUBLICATIONS']`, parses
each configured BibTeX file through the external `pybtex` library, transforms
every parsed entry into a flat publication record, sorts the records by a
year-derived key, and stores the result in `generator.context`.

The embedding below translates that function and its helpers into pure Lean
functions.  Python strings are modelled by `String` with character-list
implementations of `str.split`, `str.strip`, `str.replace` and `int(...)` so
that everything evaluates by kernel reduction.  The mutable `generator`
object is modelled by explicit state passing: the context is an association
list, and the in-place mutation of parsed pybtex entries (via
`entry_tmp = entry; entry_tmp.fields.pop(...)`) is modelled by returning the
updated entry alongside each produced record.  Exceptions that the Python
code does not catch are modelled with `Except`; `logger.warn` calls are
collected in a list of warning strings.
-/

/-- Characters treated as whitespace by Python's `str.strip()` / `int()`,
modelled by `Char.isWhitespace`. -/
def pyIsSpace (c : Char) : Bool := c.isWhitespace

/-- Character-list implementation of Python's `str.strip()`: drop whitespace
from both ends. -/
def trimChars (s : List Char) : List Char :=
  ((s.dropWhile pyIsSpace).reverse.dropWhile pyIsSpace).reverse

/-- Python `str.strip()` on strings (used for `tag.strip()` and inside
`int(...)`). -/
def pyStrip (s : String) : String := ⟨trimChars s.data⟩

/-- Worker for the leftmost non-overlapping split of a character list on a
non-empty separator `old`, the semantics of Python's `str.split(sep)`.  The
recursion consumes one character per step; `skip > 0` means that many
characters of an already-matched separator occurrence remain to be consumed
without being emitted. -/
def lsAux (old : List Char) (skip : Nat) : List Char → List (List Char)
  | [] => [[]]
  | c :: cs =>
    match skip with
    | n + 1 => lsAux old n cs
    | 0 =>
      if old ≠ [] ∧ old.isPrefixOf (c :: cs) then
        [] :: lsAux old (old.length - 1) cs
      else
        match lsAux old 0 cs with
        | [] => [[c]]
        | p :: ps => (c :: p) :: ps

/-- Leftmost non-overlapping split on a non-empty separator, Python's
`str.split(sep)`. -/
def listSplit (old : List Char) (s : List Char) : List (List Char) :=
  lsAux old 0 s

/-- Worker for leftmost non-overlapping replacement of `old` by `new`, the
semantics of Python's `str.replace(old, new)` for non-empty `old`; `skip`
plays the same role as in `lsAux`. -/
def lrAux (old new : List Char) (skip : Nat) : List Char → List Char
  | [] => []
  | c :: cs =>
    match skip with
    | n + 1 => lrAux old new n cs
    | 0 =>
      if old ≠ [] ∧ old.isPrefixOf (c :: cs) then
        new ++ lrAux old new (old.length - 1) cs
      else
        c :: lrAux old new 0 cs

/-- Leftmost non-overlapping replacement, Python's `str.replace(old, new)`
for non-empty `old`. -/
def listReplace (old new : List Char) (s : List Char) : List Char :=
  lrAux old new 0 s

/-- Python `str.replace("", new)` interleaves `new` around every character. -/
def listReplaceEmpty (new : List Char) : List Char → List Char
  | [] => new
  | c :: cs => new ++ c :: listReplaceEmpty new cs

/-- Python `s.replace(old, new)`. -/
def pyReplace (s old new : String) : String :=
  if old = "" then ⟨listReplaceEmpty new.data s.data⟩
  else ⟨listReplace old.data new.data s.data⟩

/-- Python `s.split(sep)` for a non-empty separator. -/
def pySplit (s sep : String) : List String :=
  (listSplit sep.data s.data).map (fun l => ⟨l⟩)

/-- Joining a list of character lists with a separator, the semantics of
Python's `sep.join(parts)`.  Used to state what `str.replace` does to every
occurrence of its pattern. -/
def joinWith (sep : List Char) : List (List Char) → List Char
  | [] => []
  | [p] => p
  | p :: ps => p ++ sep ++ joinWith sep ps

/-- Decimal digit test for the model of Python `int(...)`. -/
def isDigitChar (c : Char) : Bool := '0' ≤ c && c ≤ '9'

/-- Numeric value of a digit string. -/
def natOfDigits (ds : List Char) : Nat :=
  ds.foldl (fun n c => 10 * n + (c.toNat - 48)) 0

/-- Model of Python `int(s)` on strings: strip whitespace, allow an optional
sign, then require a non-empty run of decimal digits; anything else raises
`ValueError`, modelled by `none`. -/
def pyInt? (s : String) : Option Int :=
  match trimChars s.data with
  | '-' :: ds =>
    if ds ≠ [] ∧ ds.all isDigitChar then some (-(natOfDigits ds : Int)) else none
  | '+' :: ds =>
    if ds ≠ [] ∧ ds.all isDigitChar then some ((natOfDigits ds : Int)) else none
  | ds =>
    if ds ≠ [] ∧ ds.all isDigitChar then some ((natOfDigits ds : Int)) else none

/-- Model of `os.path.join(a, b)` for the two-argument uses in the plugin. -/
def pyPathJoin (a b : String) : String :=
  if b.data.take 1 = ['/'] then b
  else if a = "" ∨ a.data.getLast? = some '/' then a ++ b
  else a ++ "/" ++ b

/-- Model of `os.path.basename`: the part after the last `/`. -/
def pyBasename (p : String) : String :=
  ⟨(p.data.reverse.takeWhile (fun c => c ≠ '/')).reverse⟩

/-- Parsed pybtex entry: the `entry.type` tag and the `entry.fields`
mapping, modelled as an association list with the dictionary's key order. -/
structure Entry where
  type : String
  fields : List (String × String)
deriving DecidableEq

/-- Python `entry.fields.get(k)` / `get(k, None)`: first binding of `k`. -/
def fieldsGet (fs : List (String × String)) (k : String) : Option String :=
  (fs.find? (fun p => p.1 == k)).map (fun p => p.2)

/-- Python `entry.fields.pop(k, None)` for each key in `ks`, performed in
order (the `for to_del in [...]: entry_tmp.fields.pop(to_del, None)` loops). -/
def fieldsPopMany (fs : List (String × String)) (ks : List String) : List (String × String) :=
  ks.foldl (fun acc k => acc.filter (fun p => p.1 != k)) fs

/-- Python truthiness of `entry.fields.get(k)`: `None` and the empty string
are falsy. -/
def getTruthy (o : Option String) : Option String :=
  match o with
  | some s => if s = "" then none else some s
  | none => none

/-- The tag-splitting expression
`[tag.strip() for tag in entry.fields.get('tags').split(';')]`, guarded by
`if entry.fields.get('tags'):`, else `[]`.  The same shape is used for the
`supplements` field. -/
def splitTags (o : Option String) : List String :=
  match getTruthy o with
  | some s => (pySplit s ";").map pyStrip
  | none => []

/-- Model of the external pybtex bibtex `Writer().write_stream`: it emits the
entry's type and key and then exactly the entry's fields, each as a
`name = \x7bvalue\x7d` line.  Only the fact that the emitted bibtex keys are
exactly the keys of the entry handed to the writer matters to this
development. -/
def writeBibtex (key : String) (e : Entry) : String :=
  "@" ++ e.type ++ "\x7b" ++ key ++
    String.join (e.fields.map (fun p => ",\n    " ++ p.1 ++ " = \x7b" ++ p.2 ++ "\x7d")) ++
    "\n\x7d\n"

/-- The highlight markup `'<strong>' + replace + '</strong>'`. -/
def wrapStrong (h : String) : String := "<strong>" ++ h ++ "</strong>"

/-- The highlight loop
`for replace in highlights: text = text.replace(replace, '<strong>' + replace + '</strong>')`. -/
def applyHighlights (hl : List String) (t : String) : String :=
  hl.foldl (fun acc h => pyReplace acc h (wrapStrong h)) t

/-- One element of the `publications` list: the 13-tuple
`(key, typee, year, text, tags, display_tags, supplements, bibtex, pdf,
slides, poster, doi, url)` appended for each formatted entry. -/
structure PubRecord where
  key : String
  typee : String
  year : Option String
  text : String
  tags : List String
  display_tags : List String
  supplements : List String
  bibtex : String
  pdf : Option String
  slides : Option String
  poster : Option String
  doi : Option String
  url : Option String
deriving DecidableEq

/-- Body of the `for formatted_entry in formatted_entries:` loop for one
entry.  `render` stands for the external
`plain_style.format_entries(...)` / `text.render(html_backend)` pipeline.
Because `entry_tmp = entry` in Python aliases the parsed entry, the field
pops mutate the entry owned by `bibdata_all`; the function therefore returns
the entry as it exists in the database after the loop body, alongside the
produced record. -/
def transformEntry (render : Entry → String) (highlights : List String)
    (key : String) (entry : Entry) : PubRecord × Entry :=
  let year := fieldsGet entry.fields "year"
  let typee := entry.type
  let tags := splitTags (fieldsGet entry.fields "tags")
  let supplements := splitTags (fieldsGet entry.fields "supplements")
  let display_tags := tags.filter (fun x => x != "doi-open" && x != "url-open")
  let pdf := fieldsGet entry.fields "pdf"
  let slides := fieldsGet entry.fields "slides"
  let poster := fieldsGet entry.fields "poster"
  let doi := fieldsGet entry.fields "doi"
  let url := fieldsGet entry.fields "url"
  let entry_tmp : Entry :=
    { type := entry.type
      fields := fieldsPopMany entry.fields ["pdf", "slides", "poster", "tags", "supplements"] }
  let bibtex := writeBibtex key entry_tmp
  let entry_tmp2 : Entry :=
    { type := entry_tmp.type
      fields := fieldsPopMany entry_tmp.fields ["doi", "url"] }
  let text := applyHighlights highlights (render entry_tmp2)
  ({ key := key, typee := typee, year := year, text := text, tags := tags,
     display_tags := display_tags, supplements := supplements, bibtex := bibtex,
     pdf := pdf, slides := slides, poster := poster, doi := doi, url := url },
   entry_tmp2)

/-- The whole entry loop over `bibdata_all.entries`: produces the
`publications` list and the state of the parsed entry database after the
loop (reflecting the in-place field pops). -/
def processEntries (render : Entry → String) (highlights : List String) :
    List (String × Entry) → List PubRecord × List (String × Entry)
  | [] => ([], [])
  | (k, e) :: rest =>
    let (r, e') := transformEntry render highlights k e
    let (rs, es) := processEntries render highlights rest
    (r :: rs, (k, e') :: es)

/-- Exceptions that can escape `add_publications`.  `attributeError` models
`None.replace(...)` when the `year` field is missing; `valueError` models a
failing `int(...)` conversion (carrying the offending text). -/
inductive PyError where
  | attributeError
  | valueError (text : String)
deriving DecidableEq

instance {ε α : Type} [DecidableEq ε] [DecidableEq α] : DecidableEq (Except ε α)
  | .ok a, .ok b =>
    if h : a = b then .isTrue (congrArg Except.ok h)
    else .isFalse (fun hc => h (Except.ok.inj hc))
  | .ok _, .error _ => .isFalse (fun hc => Except.noConfusion hc)
  | .error _, .ok _ => .isFalse (fun hc => Except.noConfusion hc)
  | .error a, .error b =>
    if h : a = b then .isTrue (congrArg Except.error h)
    else .isFalse (fun hc => h (Except.error.inj hc))

/-- The sort key expression
`-int(pub[2].replace("in press", "9900").replace("under review", "9901"))`
applied to a record's year, with the two uncaught Python exceptions made
explicit: a missing year (`pub[2]` is `None`) raises `AttributeError`, and a
non-numeric result raises `ValueError`. -/
def yearKeyE (y : Option String) : Except PyError Int :=
  match y with
  | none => .error .attributeError
  | some s =>
    let s' := pyReplace (pyReplace s "in press" "9900") "under review" "9901"
    match pyInt? s' with
    | some n => .ok (-n)
    | none => .error (.valueError s')

/-- Decoration step of `sorted(publications, key=...)`: compute every
record's key (in list order), propagating the first raised exception. -/
def withKeys : List PubRecord → Except PyError (List (Int × PubRecord))
  | [] => .ok []
  | p :: ps => do
    let k ← yearKeyE p.year
    let rest ← withKeys ps
    pure ((k, p) :: rest)

/-- Comparison used by `sorted`: the bare negated year key, or, when
`group_type` is set, the lexicographic order on the composite key
`(negated year key, pub[1])`. -/
def pubRel (groupType : Bool) : (Int × PubRecord) → (Int × PubRecord) → Prop :=
  fun a b =>
    if groupType then a.1 < b.1 ∨ (a.1 = b.1 ∧ a.2.typee ≤ b.2.typee)
    else a.1 ≤ b.1

instance (g : Bool) : DecidableRel (pubRel g) := fun a b => by
  unfold pubRel
  split <;> infer_instance

instance (g : Bool) : IsTotal (Int × PubRecord) (pubRel g) := by
  constructor
  intro a b
  unfold pubRel
  split
  · rcases lt_trichotomy a.1 b.1 with h | h | h
    · exact Or.inl (Or.inl h)
    · rcases le_total a.2.typee b.2.typee with ht | ht
      · exact Or.inl (Or.inr ⟨h, ht⟩)
      · exact Or.inr (Or.inr ⟨h.symm, ht⟩)
    · exact Or.inr (Or.inl h)
  · exact le_total a.1 b.1

instance (g : Bool) : IsTrans (Int × PubRecord) (pubRel g) := by
  constructor
  intro a b c hab hbc
  unfold pubRel at *
  cases g with
  | true =>
    simp only [if_pos rfl] at *
    rcases hab with h1 | ⟨h1, h1'⟩ <;> rcases hbc with h2 | ⟨h2, h2'⟩
    · exact Or.inl (h1.trans h2)
    · exact Or.inl (h2 ▸ h1)
    · exact Or.inl (h1 ▸ h2)
    · exact Or.inr ⟨h1.trans h2, le_trans h1' h2'⟩
  | false =>
    simp only [Bool.false_eq_true, if_false] at *
    exact le_trans hab hbc

/-- Model of `sorted(publications, key=...)`: Python's `sorted` is a stable
sort, and a stable sort with respect to a total preorder is extensionally
unique, so it is embedded as `List.insertionSort` (Mathlib's stable
insertion sort) over the decorated list.  Sorting fails exactly when some
key computation raises. -/
def sortPublications (groupType : Bool) (pubs : List PubRecord) :
    Except PyError (List PubRecord) := do
  let keyed ← withKeys pubs
  pure ((List.insertionSort (pubRel groupType) keyed).map (fun x => x.2))

/-- Per-source value written to `generator.context['publications'][rid]`. -/
structure SourceResult where
  title : String
  path : String
  header : Bool
  split : Bool
  bottom_link : Bool
  split_link : Bool
  all_bibtex : Bool
  data : List PubRecord
deriving DecidableEq

/-- Values stored in the generator context: booleans (for
`PUBLICATIONS_NAVBAR`) and the `publications` ordered dictionary. -/
inductive CtxVal where
  | bool (b : Bool)
  | pubs (m : List (String × SourceResult))
deriving DecidableEq

/-- Association-list update with Python-dict semantics: replace in place if
the key exists, otherwise append. -/
def assocSet {α : Type} (m : List (String × α)) (k : String) (v : α) : List (String × α) :=
  if m.any (fun p => p.1 == k) then
    m.map (fun p => if p.1 == k then (k, v) else p)
  else m ++ [(k, v)]

/-- Association-list lookup, Python `d[k]` / `k in d`. -/
def assocGet {α : Type} (m : List (String × α)) (k : String) : Option α :=
  (m.find? (fun p => p.1 == k)).map (fun p => p.2)

/-- The generator context object, an insertion-ordered string-keyed map. -/
abbrev Ctx : Type := List (String × CtxVal)

/-- One value of the `PUBLICATIONS` settings dictionary, i.e. one `ref`:
the `file` path plus the optional per-source keys the code probes with
`if 'k' in ref:`. -/
structure Source where
  file : String
  title : Option String
  header : Option Bool
  split : Option Bool
  split_link : Option Bool
  bottom_link : Option Bool
  all_bibtex : Option Bool
  highlight : Option (List String)
  group_type : Option Bool
deriving DecidableEq

/-- The pieces of `generator.settings` the plugin reads: presence (and
value) of `PUBLICATIONS`, presence of `PUBLICATIONS_NAVBAR` (its value is
never read by the code), and `PATH`. -/
structure Settings where
  publications : Option (List (String × Source))
  navbarPresent : Bool
  path : String

/-- Warning text of
`logger.warn('`pelican_bibtex` failed to load dependency `pybtex`')`. -/
def depWarnMsg : String := "`pelican_bibtex` failed to load dependency `pybtex`"

/-- Warning text of
`logger.warn('`pelican_bibtex` failed to parse file %s: %s' % (bibfile, str(e)))`. -/
def parseWarnMsg (bibfile e : String) : String :=
  "`pelican_bibtex` failed to parse file " ++ bibfile ++ ": " ++ e

/-- Processing of one source after a successful parse: resolve the optional
per-source settings to their defaults, run the entry loop, sort, and build
the per-source context value. -/
def processSource (render : Entry → String) (rid : String) (ref : Source)
    (bibfile : String) (entries : List (String × Entry)) :
    Except PyError SourceResult := do
  let highlights := ref.highlight.getD []
  let groupType := ref.group_type.getD false
  let (pubs, _) := processEntries render highlights entries
  let data ← sortPublications groupType pubs
  pure { title := ref.title.getD rid
         path := pyBasename bibfile
         header := ref.header.getD true
         split := ref.split.getD true
         bottom_link := ref.bottom_link.getD true
         split_link := ref.split_link.getD true
         all_bibtex := ref.all_bibtex.getD false
         data := data }

/-- Writing `generator.context['publications'][rid] = {...}`: a
read-modify-write of the `publications` context value. -/
def ctxSetPub (ctx : Ctx) (rid : String) (sr : SourceResult) : Ctx :=
  match assocGet ctx "publications" with
  | some (.pubs m) => assocSet ctx "publications" (.pubs (assocSet m rid sr))
  | _ => ctx

/-- The `for rid in refs:` loop.  A parse failure logs one warning and
returns from `add_publications` (a normal return, so the context keeps
whatever was written for earlier sources); an exception inside entry
processing or sorting propagates. -/
def processRefs (parse : String → Except String (List (String × Entry)))
    (render : Entry → String) (path : String) :
    List (String × Source) → Ctx → List String → Except PyError (Ctx × List String)
  | [], ctx, ws => .ok (ctx, ws)
  | (rid, ref) :: rest, ctx, ws =>
    let bibfile := pyPathJoin path ref.file
    match parse bibfile with
    | .error e => .ok (ctx, ws ++ [parseWarnMsg bibfile e])
    | .ok entries => do
      let sr ← processSource render rid ref bibfile entries
      processRefs parse render path rest (ctxSetPub ctx rid sr) ws

/-- The `if 'PUBLICATIONS_NAVBAR' not in generator.settings:` write that
happens right after the `PUBLICATIONS` presence check. -/
def navbarStep (settings : Settings) (ctx : Ctx) : Ctx :=
  if settings.navbarPresent then ctx
  else assocSet ctx "PUBLICATIONS_NAVBAR" (.bool true)

/-- The whole of `add_publications(generator)`.  `pybtexAvailable` models
whether the `from pybtex...` imports succeed; `parse` models
`Parser().parse_file` (returning `PybtexError` text on failure); `render`
models the plain-style formatting and HTML rendering of one entry.  The
result is the final context together with the list of emitted warnings, or
the uncaught exception. -/
def addPublications (pybtexAvailable : Bool)
    (parse : String → Except String (List (String × Entry)))
    (render : Entry → String)
    (settings : Settings) (context : Ctx) : Except PyError (Ctx × List String) :=
  match settings.publications with
  | none => .ok (context, [])
  | some refs =>
    let context := navbarStep settings context
    if pybtexAvailable then
      processRefs parse render settings.path refs
        (assocSet context "publications" (.pubs [])) []
    else
      .ok (context, [depWarnMsg])

/-- Comparison that a sorted run with `group_type` must satisfy, stated on
records: both year keys are defined and the earlier record's key is not
larger. -/
def recKeyLE (p q : PubRecord) : Prop :=
  ∃ kp kq, yearKeyE p.year = .ok kp ∧ yearKeyE q.year = .ok kq ∧ kp ≤ kq

/-- Lexicographic comparison on the composite key
`(negated year key, entry type)`, stated on records. -/
def recLexLE (p q : PubRecord) : Prop :=
  ∃ kp kq, yearKeyE p.year = .ok kp ∧ yearKeyE q.year = .ok kq ∧
    (kp < kq ∨ (kp = kq ∧ p.typee ≤ q.typee))

/-- Collapse adjacent equal elements (used to say which values occupy
contiguous blocks of a list). -/
def dedupAdj : List String → List String
  | [] => []
  | [x] => [x]
  | x :: y :: r => if x = y then dedupAdj (y :: r) else x :: dedupAdj (y :: r)

/-- Formalisation of "entries are grouped by type": after collapsing
adjacent runs of equal types, no type appears twice, i.e. every entry type
occupies a single contiguous block of the list. -/
def groupedByType (l : List PubRecord) : Prop :=
  (dedupAdj (l.map (fun p => p.typee))).Nodup

/-- Projection of a run result: the per-source value stored under
`context['publications'][rid]`, when the run succeeded and the key
structure is as expected. -/
def pubsEntry (r : Except PyError (Ctx × List String)) (rid : String) : Option SourceResult :=
  match r with
  | .ok (ctx, _) =>
    match assocGet ctx "publications" with
    | some (.pubs m) => assocGet m rid
    | _ => none
  | .error _ => none

/-- Projection of a run result: the warnings of a successful run. -/
def runWarnings (r : Except PyError (Ctx × List String)) : Option (List String) :=
  match r with
  | .ok (_, ws) => some ws
  | .error _ => none

/-- A source configuration carrying only a file name, every optional key
absent. -/
def cSource (f : String) : Source :=
  ⟨f, none, none, none, none, none, none, none, none⟩

/-- A rendering function standing in for the pybtex plain-style formatter
in the concrete runs. -/
def cRender : Entry → String := fun e => "cite:" ++ e.type

/-- A parse function that always fails, for the concrete runs. -/
def cParseFail : String → Except String (List (String × Entry)) :=
  fun _ => .error "syntax error"

/-- Publication record with the given type and year text and empty
remaining payload; concrete input for the sorting theorems. -/
def cPub (t y : String) : PubRecord :=
  { key := "k", typee := t, year := some y, text := "", tags := [], display_tags := [],
    supplements := [], bibtex := "", pdf := none, slides := none, poster := none,
    doi := none, url := none }

/-- Concrete parsed entry with `year`, `pdf` and `title` fields. -/
def c1Entry : Entry := ⟨"article", [("year", "2020"), ("pdf", "x.pdf"), ("title", "T")]⟩

/-- Two configured sources; the second one's file will fail to parse. -/
def c1Settings : Settings :=
  ⟨some [("good", cSource "g.bib"), ("bad", cSource "b.bib")], true, "content"⟩

/-- Parse function that succeeds on the first source's file only. -/
def c1Parse : String → Except String (List (String × Entry)) :=
  fun p => if p = "content/g.bib" then .ok [("k1", c1Entry)] else .error "syntax error"

/-- Settings whose single source fails to parse. -/
def c1wSettings : Settings := ⟨some [("bad", cSource "b.bib")], true, "content"⟩

/-- Settings with `PUBLICATIONS` present and `PUBLICATIONS_NAVBAR` absent. -/
def c3Settings : Settings := ⟨some [("r", cSource "f.bib")], false, "p"⟩

/-- Concrete entry whose year text is neither numeric nor a recognised
sentinel. -/
def c6Entry : Entry := ⟨"article", [("year", "late 2020s")]⟩

/-- Parse function returning the single bad-year entry. -/
def c6Parse : String → Except String (List (String × Entry)) :=
  fun _ => .ok [("k", c6Entry)]

/-- Settings with one source, for the bad-year run. -/
def c6Settings : Settings := ⟨some [("r", cSource "f.bib")], true, "p"⟩

/-- Concrete entry carrying a tags field with padded pieces and an empty
supplements field. -/
def cTagsEntry : Entry := ⟨"misc", [("tags", "a; b ; c"), ("supplements", "")]⟩

/-- Settings with an empty source dictionary and `PUBLICATIONS_NAVBAR`
absent. -/
def c10Settings : Settings := ⟨some [], false, "p"⟩

/-- Concrete year-sorted input: the four year texts of the spec's sorting
example. -/
def c2Pubs : List PubRecord :=
  [cPub "misc" "2019", cPub "misc" "in press", cPub "misc" "2021", cPub "misc" "under review"]

/-- Expected output order for `c2Pubs`: "under review", "in press", then
descending concrete years. -/
def c2Res : List PubRecord :=
  [cPub "misc" "under review", cPub "misc" "in press", cPub "misc" "2021", cPub "misc" "2019"]

/-- Three records whose `group_type` sort interleaves the types. -/
def c2GroupPubs : List PubRecord :=
  [cPub "article" "2020", cPub "book" "2019", cPub "article" "2018"]

/-! Association-list laws used by the context-shape theorems. -/

theorem assocGet_map_set_ne {α : Type} (m : List (String × α)) (k k' : String) (v : α)
    (h : k' ≠ k) :
    assocGet (m.map (fun p => if p.1 == k then (k, v) else p)) k' = assocGet m k' := by
  have hkk' : ((k : String) == k') = false := beq_eq_false_iff_ne.mpr (Ne.symm h)
  induction m with
  | nil => rfl
  | cons p ps ih =>
    rw [List.map_cons]
    rcases Bool.eq_false_or_eq_true (p.1 == k) with hp | hp
    · rw [if_pos hp]
      have hpk : p.1 = k := by simpa using hp
      have hpk' : (p.1 == k') = false := by
        rw [hpk]
        exact hkk'
      unfold assocGet
      rw [List.find?_cons_of_neg _ (by simp [hkk']), List.find?_cons_of_neg _ (by simp [hpk'])]
      exact ih
    · rw [if_neg (by simp [hp])]
      rcases Bool.eq_false_or_eq_true (p.1 == k') with hq | hq
      · unfold assocGet
        simp only [List.find?, hq]
      · unfold assocGet
        rw [List.find?_cons_of_neg _ (by simp [hq]), List.find?_cons_of_neg _ (by simp [hq])]
        exact ih

theorem assocGet_assocSet_ne {α : Type} (m : List (String × α)) (k k' : String) (v : α)
    (h : k' ≠ k) : assocGet (assocSet m k v) k' = assocGet m k' := by
  have hkk' : ((k : String) == k') = false := beq_eq_false_iff_ne.mpr (Ne.symm h)
  unfold assocSet
  split
  · exact assocGet_map_set_ne m k k' v h
  · unfold assocGet
    rw [List.find?_append]
    have hlast : List.find? (fun p => p.1 == k') [(k, v)] = none := by
      simp [List.find?, hkk']
    rw [hlast]
    cases List.find? (fun p => p.1 == k') m <;> rfl

theorem assocGet_map_set_self {α : Type} (m : List (String × α)) (k : String) (v : α)
    (hany : m.any (fun p => p.1 == k) = true) :
    assocGet (m.map (fun p => if p.1 == k then (k, v) else p)) k = some v := by
  induction m with
  | nil => exact absurd hany (by simp)
  | cons p ps ih =>
    rw [List.map_cons]
    rcases Bool.eq_false_or_eq_true (p.1 == k) with hp | hp
    · rw [if_pos hp]
      unfold assocGet
      simp [List.find?]
    · have hps : ps.any (fun p => p.1 == k) = true := by
        have h1 := hany
        rw [List.any_cons, hp] at h1
        simpa using h1
      rw [if_neg (by simp [hp])]
      unfold assocGet
      rw [List.find?_cons_of_neg _ (by simp [hp])]
      exact ih hps

theorem assocGet_assocSet_self {α : Type} (m : List (String × α)) (k : String) (v : α) :
    assocGet (assocSet m k v) k = some v := by
  unfold assocSet
  split
  · next hany => exact assocGet_map_set_self m k v hany
  · unfold assocGet
    rw [List.find?_append]
    have hnone : List.find? (fun p => p.1 == k) m = none := by
      rw [List.find?_eq_none]
      intro x hx hpx
      next hany => exact hany (List.any_eq_true.mpr ⟨x, hx, hpx⟩)
    rw [hnone]
    simp [List.find?]

theorem ctxSetPub_preserves (ctx : Ctx) (rid : String) (sr : SourceResult) (k : String)
    (h : k ≠ "publications") : assocGet (ctxSetPub ctx rid sr) k = assocGet ctx k := by
  unfold ctxSetPub
  split
  · exact assocGet_assocSet_ne _ _ _ _ h
  · rfl

/-! Field-popping laws: the pops performed by the entry transformer are
filters on the field list. -/

theorem fieldsPopMany_eq_filter (ks : List String) (fs : List (String × String)) :
    fieldsPopMany fs ks = fs.filter (fun p => !(ks.any (fun k => p.1 == k))) := by
  induction ks generalizing fs with
  | nil => simp [fieldsPopMany]
  | cons k ks ih =>
    have step : fieldsPopMany fs (k :: ks) = fieldsPopMany (fs.filter (fun p => p.1 != k)) ks := rfl
    rw [step, ih, List.filter_filter]
    refine List.filter_congr ?_
    intro p _
    simp only [List.any_cons, Bool.not_or, bne]
    exact Bool.and_comm _ _

theorem fieldsGet_fieldsPopMany_of_mem (ks : List String) (fs : List (String × String))
    (n : String) (hn : n ∈ ks) : fieldsGet (fieldsPopMany fs ks) n = none := by
  rw [fieldsPopMany_eq_filter]
  unfold fieldsGet
  have : List.find? (fun p => p.1 == n) (fs.filter (fun p => !(ks.any (fun k => p.1 == k)))) = none := by
    rw [List.find?_eq_none]
    intro x hx hpx
    have hmem := (List.mem_filter.mp hx).2
    have hxn : x.1 = n := by simpa [beq_iff_eq] using hpx
    have : ks.any (fun k => x.1 == k) = true :=
      List.any_eq_true.mpr ⟨n, hn, by simp [hxn]⟩
    simp [this] at hmem
  rw [this]
  rfl

theorem not_mem_keys_fieldsPopMany (ks : List String) (fs : List (String × String))
    (n : String) (hn : n ∈ ks) : n ∉ (fieldsPopMany fs ks).map Prod.fst := by
  rw [fieldsPopMany_eq_filter]
  intro hmem
  obtain ⟨p, hp, hp1⟩ := List.mem_map.mp hmem
  have hpred := (List.mem_filter.mp hp).2
  have : ks.any (fun k => p.1 == k) = true :=
    List.any_eq_true.mpr ⟨n, hn, by simp [hp1]⟩
  simp [this] at hpred

/-! Shape lemmas about the main loop and the sort decoration. -/

theorem processRefs_preserves_key (parse : String → Except String (List (String × Entry)))
    (render : Entry → String) (path : String) (refs : List (String × Source)) (k : String)
    (hk : k ≠ "publications") :
    ∀ (ctx ctx' : Ctx) (ws ws' : List String),
      processRefs parse render path refs ctx ws = .ok (ctx', ws') →
      assocGet ctx' k = assocGet ctx k := by
  induction refs with
  | nil =>
    intro ctx ctx' ws ws' h
    have h1 : (ctx, ws) = (ctx', ws') := Except.ok.inj h
    cases h1
    rfl
  | cons r rest ih =>
    intro ctx ctx' ws ws' h
    obtain ⟨rid, ref⟩ := r
    rw [processRefs] at h
    cases hparse : parse (pyPathJoin path ref.file) with
    | error e =>
      rw [hparse] at h
      have h1 : (ctx, ws ++ [parseWarnMsg (pyPathJoin path ref.file) e]) = (ctx', ws') :=
        Except.ok.inj h
      cases h1
      rfl
    | ok entries =>
      rw [hparse] at h
      have h1 : (do
          let sr ← processSource render rid ref (pyPathJoin path ref.file) entries
          processRefs parse render path rest (ctxSetPub ctx rid sr) ws) = .ok (ctx', ws') := h
      cases hps : processSource render rid ref (pyPathJoin path ref.file) entries with
      | error e =>
        rw [hps] at h1
        exact Except.noConfusion h1
      | ok sr =>
        rw [hps] at h1
        have h2 : processRefs parse render path rest (ctxSetPub ctx rid sr) ws = .ok (ctx', ws') := h1
        rw [ih (ctxSetPub ctx rid sr) ctx' ws ws' h2]
        exact ctxSetPub_preserves ctx rid sr k hk

theorem withKeys_spec :
    ∀ (pubs : List PubRecord) (keyed : List (Int × PubRecord)),
      withKeys pubs = .ok keyed →
      keyed.map (fun x => x.2) = pubs ∧ ∀ x ∈ keyed, yearKeyE x.2.year = .ok x.1 := by
  intro pubs
  induction pubs with
  | nil =>
    intro keyed h
    have h1 : ([] : List (Int × PubRecord)) = keyed := Except.ok.inj h
    cases h1
    exact ⟨rfl, by intro x hx; cases hx⟩
  | cons p ps ih =>
    intro keyed h
    rw [withKeys] at h
    cases hk : yearKeyE p.year with
    | error e =>
      rw [hk] at h
      exact absurd h (by simp [Bind.bind, Except.bind])
    | ok kp =>
      rw [hk] at h
      cases hrest : withKeys ps with
      | error e =>
        rw [hrest] at h
        exact absurd h (by simp [Bind.bind, Except.bind])
      | ok krest =>
        rw [hrest] at h
        have h1 : (kp, p) :: krest = keyed := Except.ok.inj h
        cases h1
        obtain ⟨ihm, ihk⟩ := ih krest hrest
        refine ⟨by rw [List.map_cons, ihm], ?_⟩
        intro x hx
        rcases List.mem_cons.mp hx with hx | hx
        · cases hx
          exact hk
        · exact ihk x hx

theorem withKeys_error_of_mem :
    ∀ (pubs : List PubRecord), (∃ r ∈ pubs, ∃ err, yearKeyE r.year = .error err) →
      ∃ err2, withKeys pubs = .error err2 := by
  intro pubs
  induction pubs with
  | nil =>
    intro h
    obtain ⟨r, hr, _⟩ := h
    cases hr
  | cons p ps ih =>
    intro h
    obtain ⟨r, hr, err, herr⟩ := h
    rcases List.mem_cons.mp hr with hx | hx
    · cases hx
      refine ⟨err, ?_⟩
      rw [withKeys, herr]
      rfl
    · cases hk : yearKeyE p.year with
      | error e =>
        refine ⟨e, ?_⟩
        rw [withKeys, hk]
        rfl
      | ok kp =>
        obtain ⟨err2, herr2⟩ := ih ⟨r, hx, err, herr⟩
        refine ⟨err2, ?_⟩
        rw [withKeys, hk, herr2]
        rfl

theorem processEntries_year_mem (render : Entry → String) (hl : List String) :
    ∀ (entries : List (String × Entry)) (k : String) (e : Entry),
      (k, e) ∈ entries →
      ∃ r ∈ (processEntries render hl entries).1, r.year = fieldsGet e.fields "year" := by
  intro entries
  induction entries with
  | nil =>
    intro k e h
    cases h
  | cons q qs ih =>
    intro k e h
    obtain ⟨qk, qe⟩ := q
    rcases List.mem_cons.mp h with hx | hx
    · refine ⟨(transformEntry render hl qk qe).1, ?_, ?_⟩
      · rw [processEntries]
        exact List.mem_cons_self _ _
      · cases hx
        rfl
    · obtain ⟨r, hr, hy⟩ := ih k e hx
      refine ⟨r, ?_, hy⟩
      rw [processEntries]
      exact List.mem_cons_of_mem _ hr

/-! Properties of the `str.replace` / `str.split` model: a replacement
rewrites every leftmost non-overlapping occurrence of the pattern, which is
captured by the split-and-rejoin characterisation below. -/

theorem lsAux_head_pre (old : List Char) :
    ∀ (s : List Char) (skip : Nat),
      ∃ p ps, lsAux old skip s = p :: ps ∧ p <+: s.drop skip := by
  intro s
  induction s with
  | nil =>
    intro skip
    exact ⟨[], [], rfl, by simp⟩
  | cons c cs ih =>
    intro skip
    cases skip with
    | succ n =>
      obtain ⟨p, ps, heq, hpre⟩ := ih n
      exact ⟨p, ps, heq, by simpa [List.drop_succ_cons] using hpre⟩
    | zero =>
      by_cases h : old ≠ [] ∧ old.isPrefixOf (c :: cs)
      · refine ⟨[], lsAux old (old.length - 1) cs, ?_, by simp⟩
        simp only [lsAux]
        rw [if_pos h]
      · obtain ⟨p, ps, heq, hpre⟩ := ih 0
        refine ⟨c :: p, ps, ?_, ?_⟩
        · simp only [lsAux]
          rw [if_neg h, heq]
        · rw [List.drop_zero]
          exact List.cons_prefix_cons.mpr ⟨rfl, by simpa using hpre⟩

theorem lsAux_no_occ (old : List Char) (hold : old ≠ []) :
    ∀ (s : List Char) (skip : Nat) (p : List Char),
      p ∈ lsAux old skip s → ¬ old <:+: p := by
  intro s
  induction s with
  | nil =>
    intro skip p hp hinf
    have hpn : p = [] := by simpa [lsAux] using hp
    subst hpn
    exact hold (List.eq_nil_of_infix_nil hinf)
  | cons c cs ih =>
    intro skip p hp hinf
    cases skip with
    | succ n => exact ih n p hp hinf
    | zero =>
      by_cases h : old ≠ [] ∧ old.isPrefixOf (c :: cs)
      · have heq : lsAux old 0 (c :: cs) = [] :: lsAux old (old.length - 1) cs := by
          simp only [lsAux]
          rw [if_pos h]
        rw [heq] at hp
        rcases List.mem_cons.mp hp with h1 | h1
        · subst h1
          exact hold (List.eq_nil_of_infix_nil hinf)
        · exact ih _ p h1 hinf
      · obtain ⟨q, qs, hq, hqpre⟩ := lsAux_head_pre old cs 0
        have heq : lsAux old 0 (c :: cs) = (c :: q) :: qs := by
          simp only [lsAux]
          rw [if_neg h, hq]
        rw [heq] at hp
        rcases List.mem_cons.mp hp with h1 | h1
        · subst h1
          rcases List.infix_cons_iff.mp hinf with h2 | h2
          · have hq' : (c :: q) <+: (c :: cs) :=
              List.cons_prefix_cons.mpr ⟨rfl, by simpa using hqpre⟩
            have h3 : old.isPrefixOf (c :: cs) = true :=
              List.isPrefixOf_iff_prefix.mpr (h2.trans hq')
            exact h ⟨hold, h3⟩
          · have hqmem : q ∈ lsAux old 0 cs := by
              rw [hq]
              exact List.mem_cons_self _ _
            exact ih 0 q hqmem h2
        · have hpm : p ∈ lsAux old 0 cs := by
            rw [hq]
            exact List.mem_cons_of_mem _ h1
          exact ih 0 p hpm hinf

theorem lrAux_eq_joinWith (old new : List Char) :
    ∀ (s : List Char) (skip : Nat),
      lrAux old new skip s = joinWith new (lsAux old skip s) := by
  intro s
  induction s with
  | nil =>
    intro skip
    rfl
  | cons c cs ih =>
    intro skip
    cases skip with
    | succ n => exact ih n
    | zero =>
      by_cases h : old ≠ [] ∧ old.isPrefixOf (c :: cs)
      · have heqr : lrAux old new 0 (c :: cs) = new ++ lrAux old new (old.length - 1) cs := by
          simp only [lrAux]
          rw [if_pos h]
        have heqs : lsAux old 0 (c :: cs) = [] :: lsAux old (old.length - 1) cs := by
          simp only [lsAux]
          rw [if_pos h]
        obtain ⟨q, qs, hq, _⟩ := lsAux_head_pre old cs (old.length - 1)
        rw [heqr, heqs, hq, ih (old.length - 1), hq]
        rfl
      · have heqr : lrAux old new 0 (c :: cs) = c :: lrAux old new 0 cs := by
          simp only [lrAux]
          rw [if_neg h]
        obtain ⟨q, qs, hq, _⟩ := lsAux_head_pre old cs 0
        have heqs : lsAux old 0 (c :: cs) = (c :: q) :: qs := by
          simp only [lsAux]
          rw [if_neg h, hq]
        rw [heqr, heqs, ih 0, hq]
        cases qs with
        | nil => rfl
        | cons q2 qs2 => rfl

theorem joinWith_lsAux (old : List Char) :
    ∀ (s : List Char) (skip : Nat), joinWith old (lsAux old skip s) = s.drop skip := by
  intro s
  induction s with
  | nil =>
    intro skip
    rw [List.drop_nil]
    rfl
  | cons c cs ih =>
    intro skip
    cases skip with
    | succ n =>
      rw [List.drop_succ_cons]
      exact ih n
    | zero =>
      rw [List.drop_zero]
      by_cases h : old ≠ [] ∧ old.isPrefixOf (c :: cs)
      · obtain ⟨hold, hpre⟩ := h
        have heqs : lsAux old 0 (c :: cs) = [] :: lsAux old (old.length - 1) cs := by
          simp only [lsAux]
          rw [if_pos ⟨hold, hpre⟩]
        have hL : old.length - 1 + 1 = old.length :=
          Nat.succ_pred_eq_of_pos (List.length_pos.mpr hold)
        obtain ⟨q, qs, hq, _⟩ := lsAux_head_pre old cs (old.length - 1)
        have hjoin : joinWith old ([] :: q :: qs) = old ++ joinWith old (q :: qs) := rfl
        have hrec := ih (old.length - 1)
        rw [hq] at hrec
        have hp : old <+: (c :: cs) := List.isPrefixOf_iff_prefix.mp hpre
        have htake : old = (c :: cs).take old.length := List.prefix_iff_eq_take.mp hp
        have hdrop : (c :: cs).drop old.length = cs.drop (old.length - 1) := by
          conv_lhs => rw [← hL]
          rw [List.drop_succ_cons]
        calc joinWith old (lsAux old 0 (c :: cs))
            = old ++ joinWith old (q :: qs) := by rw [heqs, hq, hjoin]
          _ = old ++ (c :: cs).drop old.length := by rw [hrec, hdrop]
          _ = (c :: cs).take old.length ++ (c :: cs).drop old.length := by rw [← htake]
          _ = c :: cs := List.take_append_drop _ _
      · obtain ⟨q, qs, hq, _⟩ := lsAux_head_pre old cs 0
        have heqs : lsAux old 0 (c :: cs) = (c :: q) :: qs := by
          simp only [lsAux]
          rw [if_neg h, hq]
        have hrec := ih 0
        rw [List.drop_zero, hq] at hrec
        rw [heqs]
        have hjoin : joinWith old ((c :: q) :: qs) = c :: joinWith old (q :: qs) := by
          cases qs with
          | nil => rfl
          | cons q2 qs2 => rfl
        rw [hjoin, hrec]

/-! Helper equations for the entry transformer. -/

theorem transformEntry_snd_eq (render : Entry → String) (hl : List String)
    (key : String) (e : Entry) :
    (transformEntry render hl key e).2 =
      ⟨e.type, fieldsPopMany e.fields
        ["pdf", "slides", "poster", "tags", "supplements", "doi", "url"]⟩ := rfl

theorem processSource_eq (render : Entry → String) (rid : String) (ref : Source)
    (bibfile : String) (entries : List (String × Entry)) :
    processSource render rid ref bibfile entries = (do
      let data ← sortPublications (ref.group_type.getD false)
          (processEntries render (ref.highlight.getD []) entries).1
      pure { title := ref.title.getD rid, path := pyBasename bibfile,
             header := ref.header.getD true, split := ref.split.getD true,
             bottom_link := ref.bottom_link.getD true, split_link := ref.split_link.getD true,
             all_bibtex := ref.all_bibtex.getD false, data := data }) := rfl

/-! Claim theorems. -/

/-- C8: if the settings mapping contains no `PUBLICATIONS` key,
`add_publications` returns without touching the context at all — no key of
any kind (in particular no `publications` key) is added, and no warning is
emitted. -/
theorem missing_publications_key_noop (pa : Bool)
    (parse : String → Except String (List (String × Entry)))
    (render : Entry → String) (nb : Bool) (path : String) (ctx : Ctx) :
    addPublications pa parse render ⟨none, nb, path⟩ ctx = .ok (ctx, []) := rfl

/-- C4 (counterexample): the field deletions do not operate on a transient
copy.  On a concrete entry carrying a `pdf` field, the entry held by the
parsed database after the transformer's loop body differs from the original
parsed entry — `entry_tmp = entry` aliases the library-owned structure, so
the pops mutate it. -/
theorem transform_entry_copy_counterexample :
    (transformEntry cRender [] "k1" c1Entry).2 ≠ c1Entry ∧
    (processEntries cRender [] [("k1", c1Entry)]).2 ≠ [("k1", c1Entry)] := by
  exact ⟨by decide, by decide⟩

/-- C4 (amended): the deletions performed before the two re-serializations
mutate the parsed entry itself (no copy is taken): after the loop body the
entry in the parsed database is exactly the original entry with the fields
`pdf`, `slides`, `poster`, `tags`, `supplements`, `doi`, `url` removed. -/
theorem transform_mutates_parsed_entry (render : Entry → String) (hl : List String)
    (key : String) (e : Entry) (entries : List (String × Entry)) :
    (transformEntry render hl key e).2 =
      ⟨e.type, fieldsPopMany e.fields
        ["pdf", "slides", "poster", "tags", "supplements", "doi", "url"]⟩
    ∧ (processEntries render hl entries).2 =
        entries.map (fun p => (p.1,
          (⟨p.2.type, fieldsPopMany p.2.fields
            ["pdf", "slides", "poster", "tags", "supplements", "doi", "url"]⟩ : Entry))) := by
  refine ⟨transformEntry_snd_eq render hl key e, ?_⟩
  induction entries with
  | nil => rfl
  | cons q qs ih =>
    obtain ⟨qk, qe⟩ := q
    show (qk, (transformEntry render hl qk qe).2) :: (processEntries render hl qs).2 = _
    rw [List.map_cons, ih]
    rfl

/-- C5: the bibtex text stored in a record is the serialization of the entry
with `pdf`, `slides`, `poster`, `tags`, `supplements` removed — none of
those names remains a field (hence a bibtex key) of the serialized entry —
and the rendered citation text is produced from the entry additionally
stripped of `doi` and `url`. -/
theorem stripped_fields_absent_from_bibtex (render : Entry → String) (hl : List String)
    (key : String) (e : Entry) :
    (transformEntry render hl key e).1.bibtex =
      writeBibtex key ⟨e.type, fieldsPopMany e.fields ["pdf", "slides", "poster", "tags", "supplements"]⟩
    ∧ (∀ n ∈ (["pdf", "slides", "poster", "tags", "supplements"] : List String),
        fieldsGet (fieldsPopMany e.fields ["pdf", "slides", "poster", "tags", "supplements"]) n = none
        ∧ n ∉ (fieldsPopMany e.fields ["pdf", "slides", "poster", "tags", "supplements"]).map Prod.fst)
    ∧ (transformEntry render hl key e).1.text =
        applyHighlights hl (render ⟨e.type,
          fieldsPopMany (fieldsPopMany e.fields ["pdf", "slides", "poster", "tags", "supplements"])
            ["doi", "url"]⟩) := by
  refine ⟨rfl, ?_, rfl⟩
  intro n hn
  exact ⟨fieldsGet_fieldsPopMany_of_mem _ _ _ hn, not_mem_keys_fieldsPopMany _ _ _ hn⟩

/-- C5 (witness): instantiation at the concrete entry with `pdf` and at the
stripped name `pdf`. -/
theorem stripped_fields_absent_from_bibtex_witness :
    fieldsGet (fieldsPopMany c1Entry.fields ["pdf", "slides", "poster", "tags", "supplements"]) "pdf" = none
    ∧ "pdf" ∉ (fieldsPopMany c1Entry.fields ["pdf", "slides", "poster", "tags", "supplements"]).map Prod.fst :=
  (stripped_fields_absent_from_bibtex cRender [] "k1" c1Entry).2.1 "pdf" (by decide)

/-- C7: the tags list (and likewise the supplements list) is obtained by
splitting the field's value on `;` and trimming whitespace from each piece;
`"a; b ; c"` yields exactly `["a", "b", "c"]`, and an absent or empty field
yields the empty list. -/
theorem tags_split_and_trimmed (render : Entry → String) (hl : List String)
    (key : String) (e : Entry) :
    (∀ s, fieldsGet e.fields "tags" = some s → s ≠ "" →
      (transformEntry render hl key e).1.tags = (pySplit s ";").map pyStrip)
    ∧ (fieldsGet e.fields "tags" = none → (transformEntry render hl key e).1.tags = [])
    ∧ (fieldsGet e.fields "tags" = some "" → (transformEntry render hl key e).1.tags = [])
    ∧ (fieldsGet e.fields "tags" = some "a; b ; c" →
        (transformEntry render hl key e).1.tags = ["a", "b", "c"])
    ∧ (∀ s, fieldsGet e.fields "supplements" = some s → s ≠ "" →
        (transformEntry render hl key e).1.supplements = (pySplit s ";").map pyStrip)
    ∧ (fieldsGet e.fields "supplements" = none →
        (transformEntry render hl key e).1.supplements = [])
    ∧ (fieldsGet e.fields "supplements" = some "" →
        (transformEntry render hl key e).1.supplements = []) := by
  have htags : (transformEntry render hl key e).1.tags =
      splitTags (fieldsGet e.fields "tags") := rfl
  have hsupp : (transformEntry render hl key e).1.supplements =
      splitTags (fieldsGet e.fields "supplements") := rfl
  refine ⟨?_, ?_, ?_, ?_, ?_, ?_, ?_⟩
  · intro s h hne
    rw [htags, h]
    simp [splitTags, getTruthy, hne]
  · intro h
    rw [htags, h]
    rfl
  · intro h
    rw [htags, h]
    rfl
  · intro h
    rw [htags, h]
    decide
  · intro s h hne
    rw [hsupp, h]
    simp [splitTags, getTruthy, hne]
  · intro h
    rw [hsupp, h]
    rfl
  · intro h
    rw [hsupp, h]
    rfl

/-- C7 (witness): on the concrete entry with `tags = "a; b ; c"` and an
empty `supplements` field. -/
theorem tags_split_and_trimmed_witness :
    (transformEntry cRender [] "k" cTagsEntry).1.tags = ["a", "b", "c"]
    ∧ (transformEntry cRender [] "k" cTagsEntry).1.supplements = [] :=
  ⟨(tags_split_and_trimmed cRender [] "k" cTagsEntry).2.2.2.1 (by decide),
   (tags_split_and_trimmed cRender [] "k" cTagsEntry).2.2.2.2.2.2 (by decide)⟩

/-- C1 (amended): when the first configured source's file fails to parse,
`add_publications` emits exactly one warning naming the file and the parse
error, ceases processing (no further source is touched), and adds no
per-source entry; the `publications` context key itself has however already
been created (empty here, and retaining earlier sources' results when the
failure happens later in the loop). -/
theorem parse_failure_warns_and_aborts
    (parse : String → Except String (List (String × Entry)))
    (render : Entry → String) (settings : Settings) (ctx : Ctx)
    (rid : String) (ref : Source) (rest : List (String × Source)) (msg : String)
    (hpubs : settings.publications = some ((rid, ref) :: rest))
    (hparse : parse (pyPathJoin settings.path ref.file) = .error msg) :
    addPublications true parse render settings ctx =
      .ok (assocSet (navbarStep settings ctx) "publications" (.pubs []),
           [parseWarnMsg (pyPathJoin settings.path ref.file) msg]) := by
  simp only [addPublications, hpubs, if_pos]
  rw [processRefs, hparse]
  rfl

/-- C1 (witness): concrete single-source run whose file fails to parse. -/
theorem parse_failure_warns_and_aborts_witness :
    addPublications true cParseFail cRender c1wSettings [] =
      .ok (assocSet (navbarStep c1wSettings []) "publications" (.pubs []),
           [parseWarnMsg (pyPathJoin "content" "b.bib") "syntax error"]) :=
  parse_failure_warns_and_aborts cParseFail cRender c1wSettings [] "bad" (cSource "b.bib") []
    "syntax error" rfl rfl

/-- C1 (counterexample): with two sources of which the second fails to
parse, the run returns normally with exactly one warning, yet the context
does hold an entry for that build: the `publications` key exists and
contains the fully-processed first source — partial results are available,
refuting "produces no context entry for that build". -/
theorem parse_failure_partial_context_counterexample :
    (pubsEntry (addPublications true c1Parse cRender c1Settings []) "good").isSome = true
    ∧ runWarnings (addPublications true c1Parse cRender c1Settings []) =
        some [parseWarnMsg "content/b.bib" "syntax error"] := by
  exact ⟨by decide, by decide⟩

/-- C3 (amended): when the pybtex dependency is unavailable,
`add_publications` logs exactly one warning and skips the whole operation —
no `publications` key is added — but the context is not necessarily left
without any new key: the `PUBLICATIONS_NAVBAR` default is written before
the import check whenever that setting is absent. -/
theorem missing_pybtex_warns_and_skips
    (parse : String → Except String (List (String × Entry)))
    (render : Entry → String) (settings : Settings) (ctx : Ctx)
    (refs : List (String × Source)) (hpubs : settings.publications = some refs) :
    addPublications false parse render settings ctx = .ok (navbarStep settings ctx, [depWarnMsg])
    ∧ assocGet (navbarStep settings ctx) "publications" = assocGet ctx "publications" := by
  constructor
  · simp only [addPublications, hpubs, Bool.false_eq_true, if_false]
  · unfold navbarStep
    split
    · rfl
    · exact assocGet_assocSet_ne ctx "PUBLICATIONS_NAVBAR" "publications" (.bool true) (by decide)

/-- C3 (witness): concrete run without pybtex, one warning, no
`publications` key. -/
theorem missing_pybtex_warns_and_skips_witness :
    addPublications false c1Parse cRender c3Settings [] =
      .ok (navbarStep c3Settings [], [depWarnMsg])
    ∧ assocGet (navbarStep c3Settings []) "publications" = assocGet ([] : Ctx) "publications" :=
  missing_pybtex_warns_and_skips c1Parse cRender c3Settings [] [("r", cSource "f.bib")] rfl

/-- C3 (counterexample): with `PUBLICATIONS` present and
`PUBLICATIONS_NAVBAR` absent from the settings, the pybtex-unavailable run
does add a key to the context: `PUBLICATIONS_NAVBAR = True` is written
before the failed import is detected, refuting "no key of any kind is added
to the context". -/
theorem missing_pybtex_navbar_key_counterexample :
    addPublications false c1Parse cRender c3Settings [] =
      .ok ([("PUBLICATIONS_NAVBAR", CtxVal.bool true)], [depWarnMsg])
    ∧ assocGet ([("PUBLICATIONS_NAVBAR", CtxVal.bool true)] : Ctx) "PUBLICATIONS_NAVBAR" =
        some (CtxVal.bool true) := by
  exact ⟨by decide, by decide⟩

/-- C9: the citation text stored in a record is obtained from the rendered
text of the stripped entry by applying each configured highlight term in
sequence, each application being Python's plain substring replacement; a
replacement with a non-empty term rewrites every leftmost non-overlapping
occurrence: the text splits on the term into parts that contain no further
occurrence, and the result is those parts rejoined with the `<strong>`
wrapper. -/
theorem highlights_wrap_every_occurrence (render : Entry → String) (hl : List String)
    (key : String) (e : Entry) :
    (transformEntry render hl key e).1.text =
      List.foldl (fun acc h => pyReplace acc h (wrapStrong h))
        (render ⟨e.type, fieldsPopMany e.fields
          ["pdf", "slides", "poster", "tags", "supplements", "doi", "url"]⟩) hl
    ∧ (∀ (t h : String) (rest : List String),
        applyHighlights (h :: rest) t = applyHighlights rest (pyReplace t h (wrapStrong h)))
    ∧ (∀ (t h : String), h ≠ "" →
        pyReplace t h (wrapStrong h) = ⟨joinWith (wrapStrong h).data (listSplit h.data t.data)⟩)
    ∧ (∀ (t h : String), (⟨joinWith h.data (listSplit h.data t.data)⟩ : String) = t)
    ∧ (∀ (t h : String) (p : List Char), h ≠ "" →
        p ∈ listSplit h.data t.data → ¬ h.data <:+: p) := by
  refine ⟨?_, ?_, ?_, ?_, ?_⟩
  · rw [← transformEntry_snd_eq render hl key e]
    rfl
  · intro t h rest
    rfl
  · intro t h hne
    unfold pyReplace
    rw [if_neg hne]
    exact congrArg (fun l => (⟨l⟩ : String)) (lrAux_eq_joinWith h.data (wrapStrong h).data t.data 0)
  · intro t h
    have h1 := joinWith_lsAux h.data t.data 0
    rw [List.drop_zero] at h1
    exact congrArg (fun l => (⟨l⟩ : String)) h1
  · intro t h p hne hmem
    exact lsAux_no_occ h.data (fun hd => hne (String.ext hd)) t.data 0 p hmem

/-- C9 (witness): replacing `"cat"` in `"concatenation"` — a partial-word
occurrence — is wrapped, demonstrating plain substring replacement. -/
theorem highlights_wrap_every_occurrence_witness :
    pyReplace "concatenation" "cat" (wrapStrong "cat") =
      ⟨joinWith (wrapStrong "cat").data (listSplit "cat".data "concatenation".data)⟩
    ∧ pyReplace "concatenation" "cat" (wrapStrong "cat") = "con<strong>cat</strong>enation" :=
  ⟨(highlights_wrap_every_occurrence cRender [] "k" c1Entry).2.2.1 "concatenation" "cat"
      (by decide),
   by decide⟩

/-- C6: for a source whose file parses but which contains an entry whose
year text is missing or, after the two sentinel substitutions, not a valid
integer literal, the sort-key construction raises and the exception
propagates out of `add_publications` (the run produces no result at all). -/
theorem unguarded_year_key_error_propagates
    (parse : String → Except String (List (String × Entry)))
    (render : Entry → String) (settings : Settings) (ctx : Ctx)
    (rid : String) (ref : Source) (entries : List (String × Entry))
    (k : String) (e : Entry) (err : PyError)
    (hpubs : settings.publications = some [(rid, ref)])
    (hparse : parse (pyPathJoin settings.path ref.file) = .ok entries)
    (hmem : (k, e) ∈ entries)
    (hkey : yearKeyE (fieldsGet e.fields "year") = .error err) :
    ∃ err2, addPublications true parse render settings ctx = .error err2 := by
  obtain ⟨r, hrmem, hry⟩ := processEntries_year_mem render (ref.highlight.getD []) entries k e hmem
  have hkr1 : yearKeyE r.year = .error err := by
    rw [hry]
    exact hkey
  obtain ⟨err2, hwk⟩ := withKeys_error_of_mem
    (processEntries render (ref.highlight.getD []) entries).1 ⟨r, hrmem, err, hkr1⟩
  refine ⟨err2, ?_⟩
  have hsort : sortPublications (ref.group_type.getD false)
      (processEntries render (ref.highlight.getD []) entries).1 = .error err2 := by
    unfold sortPublications
    rw [hwk]
    rfl
  have hps : processSource render rid ref (pyPathJoin settings.path ref.file) entries =
      .error err2 := by
    rw [processSource_eq, hsort]
    rfl
  simp only [addPublications, hpubs, if_pos]
  rw [processRefs, hparse]
  have hfinal : (do
      let sr ← processSource render rid ref (pyPathJoin settings.path ref.file) entries
      processRefs parse render settings.path []
        (ctxSetPub (assocSet (navbarStep settings ctx) "publications" (.pubs [])) rid sr) [])
      = (.error err2 : Except PyError (Ctx × List String)) := by
    rw [hps]
    rfl
  exact hfinal

/-- C6 (witness): concrete run over a single entry whose year text is
`"late 2020s"`. -/
theorem unguarded_year_key_error_propagates_witness :
    ∃ err2, addPublications true c6Parse cRender c6Settings [] = .error err2 :=
  unguarded_year_key_error_propagates c6Parse cRender c6Settings [] "r" (cSource "f.bib")
    [("k", c6Entry)] "k" c6Entry (.valueError "late 2020s") rfl rfl (by decide) (by decide)

/-- C2 (amended): for every successful sort, the published list is a
permutation of the transformed records, sorted ascending by the negated
sentinel-substituted year key (every record's key is defined); with
`group_type` the composite key `(negated year key, type)` is used, so
records sharing a year key are additionally ordered by type, and the
records of any one type appear in recency order (though not necessarily
contiguously); the sentinels evaluate to keys `-9900` ("in press") and
`-9901` ("under review"). -/
theorem publications_sorted_by_year_key (g : Bool) (pubs res : List PubRecord)
    (hok : sortPublications g pubs = .ok res) :
    res.Perm pubs
    ∧ (g = false → res.Pairwise recKeyLE)
    ∧ (g = true → res.Pairwise recLexLE)
    ∧ (g = true → ∀ t : String, (res.filter (fun p => p.typee == t)).Pairwise recKeyLE)
    ∧ yearKeyE (some "in press") = .ok (-9900)
    ∧ yearKeyE (some "under review") = .ok (-9901) := by
  cases hkeys : withKeys pubs with
  | error e =>
    have hok2 : (Except.error e : Except PyError (List PubRecord)) = .ok res := by
      rw [← hok]
      unfold sortPublications
      rw [hkeys]
      rfl
    exact absurd hok2 (by simp)
  | ok keyed =>
    have hok2 : ((List.insertionSort (pubRel g) keyed).map (fun x => x.2)) = res := by
      have h0 : sortPublications g pubs =
          .ok ((List.insertionSort (pubRel g) keyed).map (fun x => x.2)) := by
        unfold sortPublications
        rw [hkeys]
        rfl
      exact Except.ok.inj (h0.symm.trans hok)
    obtain ⟨hmap, hkf⟩ := withKeys_spec pubs keyed hkeys
    subst hok2
    have hperm0 : (List.insertionSort (pubRel g) keyed).Perm keyed :=
      List.perm_insertionSort _ _
    have hmem : ∀ x ∈ List.insertionSort (pubRel g) keyed, yearKeyE x.2.year = .ok x.1 := by
      intro x hx
      exact hkf x (hperm0.mem_iff.mp hx)
    have hpw : List.Pairwise
        (fun a b => pubRel g a b ∧ yearKeyE a.2.year = .ok a.1 ∧ yearKeyE b.2.year = .ok b.1)
        (List.insertionSort (pubRel g) keyed) :=
      List.Pairwise.imp_of_mem
        (fun ha hb hr => ⟨hr, hmem _ ha, hmem _ hb⟩)
        (List.sorted_insertionSort (pubRel g) keyed)
    refine ⟨?_, ?_, ?_, ?_, by decide, by decide⟩
    · rw [← hmap]
      exact hperm0.map _
    · intro hg
      subst hg
      refine List.Pairwise.map _ ?_ hpw
      rintro a b ⟨hr, hka, hkb⟩
      refine ⟨a.1, b.1, hka, hkb, ?_⟩
      simpa [pubRel] using hr
    · intro hg
      subst hg
      refine List.Pairwise.map _ ?_ hpw
      rintro a b ⟨hr, hka, hkb⟩
      refine ⟨a.1, b.1, hka, hkb, ?_⟩
      simpa [pubRel] using hr
    · intro hg t
      subst hg
      have hlex : List.Pairwise recLexLE
          ((List.insertionSort (pubRel true) keyed).map (fun x => x.2)) := by
        refine List.Pairwise.map _ ?_ hpw
        rintro a b ⟨hr, hka, hkb⟩
        refine ⟨a.1, b.1, hka, hkb, ?_⟩
        simpa [pubRel] using hr
      have hfilter := List.Pairwise.sublist
        (@List.filter_sublist PubRecord (fun p => p.typee == t) _) hlex
      refine hfilter.imp ?_
      rintro a b ⟨kp, kq, hka, hkb, hor⟩
      refine ⟨kp, kq, hka, hkb, ?_⟩
      rcases hor with h1 | h1
      · exact le_of_lt h1
      · exact le_of_eq h1.1

/-- C2 (witness): on the spec's four-year example
`{2019, "in press", 2021, "under review"}`, the sort succeeds with output
order "under review", "in press", 2021, 2019, and the sorting theorem
applies to that run. -/
theorem publications_sorted_by_year_key_witness :
    sortPublications false c2Pubs = .ok c2Res
    ∧ (c2Res.Perm c2Pubs
       ∧ (false = false → c2Res.Pairwise recKeyLE)
       ∧ (false = true → c2Res.Pairwise recLexLE)
       ∧ (false = true → ∀ t : String, (c2Res.filter (fun p => p.typee == t)).Pairwise recKeyLE)
       ∧ yearKeyE (some "in press") = .ok (-9900)
       ∧ yearKeyE (some "under review") = .ok (-9901)) :=
  ⟨by decide, publications_sorted_by_year_key false c2Pubs c2Res (by decide)⟩

/-- C2 (counterexample): with `group_type` enabled, entries are not grouped
by type: on three records (article 2020, book 2019, article 2018) the
composite key `(negated year, type)` leaves the list as is, with the
article records separated by the book record — the "article" type does not
occupy a contiguous block. -/
theorem group_type_not_contiguous_counterexample :
    sortPublications true c2GroupPubs = .ok c2GroupPubs
    ∧ ¬ groupedByType c2GroupPubs := by
  refine ⟨by decide, ?_⟩
  show ¬ (dedupAdj (c2GroupPubs.map (fun p => p.typee))).Nodup
  decide

/-- C10: `add_publications` writes `context['PUBLICATIONS_NAVBAR'] = True`
exactly when the settings contain `PUBLICATIONS` but not
`PUBLICATIONS_NAVBAR`; when the setting is present nothing is written under
that context key at all (its value is never copied — indeed the code never
reads it). -/
theorem navbar_default_written_iff_absent (pa : Bool)
    (parse : String → Except String (List (String × Entry)))
    (render : Entry → String) (settings : Settings) (ctx ctx' : Ctx) (ws : List String)
    (hok : addPublications pa parse render settings ctx = .ok (ctx', ws))
    (hinit : assocGet ctx "PUBLICATIONS_NAVBAR" = none) :
    (assocGet ctx' "PUBLICATIONS_NAVBAR" = some (.bool true)
      ↔ settings.publications.isSome = true ∧ settings.navbarPresent = false)
    ∧ (settings.navbarPresent = true →
        assocGet ctx' "PUBLICATIONS_NAVBAR" = assocGet ctx "PUBLICATIONS_NAVBAR") := by
  cases hpubs : settings.publications with
  | none =>
    have hok2 : (Except.ok (ctx, ([] : List String)) : Except PyError (Ctx × List String)) =
        .ok (ctx', ws) := by
      rw [← hok]
      simp only [addPublications, hpubs]
    have h1 : ctx = ctx' := congrArg Prod.fst (Except.ok.inj hok2)
    subst h1
    constructor
    · constructor
      · intro hfalse
        rw [hinit] at hfalse
        exact absurd hfalse (by simp)
      · rintro ⟨hs, _⟩
        exact absurd hs (by simp)
    · intro _
      rfl
  | some refs =>
    have hok2 : (if pa then
          processRefs parse render settings.path refs
            (assocSet (navbarStep settings ctx) "publications" (.pubs [])) []
        else .ok (navbarStep settings ctx, [depWarnMsg])) = .ok (ctx', ws) := by
      rw [← hok]
      simp only [addPublications, hpubs]
    have hnav : assocGet ctx' "PUBLICATIONS_NAVBAR" =
        assocGet (navbarStep settings ctx) "PUBLICATIONS_NAVBAR" := by
      cases pa with
      | true =>
        rw [if_pos rfl] at hok2
        have h2 := processRefs_preserves_key parse render settings.path refs
          "PUBLICATIONS_NAVBAR" (by decide) _ ctx' [] ws hok2
        rw [h2]
        exact assocGet_assocSet_ne _ "publications" "PUBLICATIONS_NAVBAR" _ (by decide)
      | false =>
        rw [if_neg (by simp)] at hok2
        have h2 : navbarStep settings ctx = ctx' :=
          congrArg Prod.fst (Except.ok.inj hok2)
        rw [← h2]
    refine ⟨?_, ?_⟩
    · rw [hnav]
      unfold navbarStep
      cases hnb : settings.navbarPresent with
      | true =>
        rw [if_pos rfl]
        constructor
        · intro hfalse
          rw [hinit] at hfalse
          exact absurd hfalse (by simp)
        · rintro ⟨_, hf⟩
          exact absurd hf (by simp)
      | false =>
        rw [if_neg (by simp), assocGet_assocSet_self]
        constructor
        · intro _
          exact ⟨rfl, rfl⟩
        · intro _
          rfl
    · intro hnb
      rw [hnav]
      unfold navbarStep
      rw [hnb, if_pos rfl]

/-- C10 (witness): run with `PUBLICATIONS` present (empty source dict) and
`PUBLICATIONS_NAVBAR` absent, on an empty initial context. -/
theorem navbar_default_written_iff_absent_witness :
    (assocGet ([("PUBLICATIONS_NAVBAR", CtxVal.bool true), ("publications", CtxVal.pubs [])] : Ctx)
        "PUBLICATIONS_NAVBAR" = some (.bool true)
      ↔ c10Settings.publications.isSome = true ∧ c10Settings.navbarPresent = false)
    ∧ (c10Settings.navbarPresent = true →
        assocGet ([("PUBLICATIONS_NAVBAR", CtxVal.bool true), ("publications", CtxVal.pubs [])] : Ctx)
          "PUBLICATIONS_NAVBAR" = assocGet ([] : Ctx) "PUBLICATIONS_NAVBAR") :=
  navbar_default_written_iff_absent true cParseFail cRender c10Settings []
    [("PUBLICATIONS_NAVBAR", CtxVal.bool true), ("publications", CtxVal.pubs [])] []
    (by decide) (by decide)
